import Mathlib

/-!
Shallow embedding of `populate-marketplace.js`: a batch pipeline that turns
stored video files into marketplace listings.  Pure logic (filename
classifier, metadata normalizer, pricing, attribute parsing) is embedded as
executable Lean functions; the network-bound collaborators (object storage,
document store) appear as abstract oracles to the orchestrator model, and
the orchestrator's control flow is modelled as a pure function emitting an
event trace.
-/

namespace Marketplace

/-! ## Filename classifier (`parseFilename`, lines 36-122)

String operations are modelled structurally over `List Char` (via
`String.data`) so that every definition reduces in the kernel; JS
`toLowerCase`/`toUpperCase` are modelled on their ASCII behavior
(`Char.toLower`/`Char.toUpper`), which covers every input the claims
mention. -/

/-- ASCII lowercasing of a string (JS `toLowerCase` on ASCII input). -/
def strToLower (s : String) : String :=
  String.mk (s.data.map Char.toLower)

/-- Whether `needle` occurs at the start of `hay`. -/
def matchesAt : List Char → List Char → Bool
  | [], _ => true
  | _ :: _, [] => false
  | c :: cs, d :: ds => c = d && matchesAt cs ds

/-- Whether `suf` is a suffix of `l`. -/
def endsWithChars (l suf : List Char) : Bool :=
  matchesAt suf.reverse l.reverse

/-- Strip a known video extension, case-insensitively, from the end of the
filename (`filename.replace(/\.(mp4|mov|avi|webm)$/i, '')`, line 38). -/
def stripVideoExt (l : List Char) : List Char :=
  let ll := l.map Char.toLower
  if endsWithChars ll ".mp4".data || endsWithChars ll ".mov".data ||
      endsWithChars ll ".avi".data then
    l.take (l.length - 4)
  else if endsWithChars ll ".webm".data then
    l.take (l.length - 5)
  else l

/-- Replace the separators `-` and `_` by spaces (line 42). -/
def replaceSeps (l : List Char) : List Char :=
  l.map fun c => if c = '-' || c = '_' then ' ' else c

/-- Insert a space at every boundary of an ASCII lowercase letter followed by
an ASCII uppercase letter (`replace(/([a-z])([A-Z])/g, '$1 $2')`, line 43). -/
def camelSplit : List Char → List Char
  | [] => []
  | [c] => [c]
  | c1 :: c2 :: rest =>
    if c1.isLower && c2.isUpper then c1 :: ' ' :: camelSplit (c2 :: rest)
    else c1 :: camelSplit (c2 :: rest)

/-- The cleaned name: extension stripped, separators and camel-case
boundaries spaced, lowercased (lines 38-44). -/
def cleanNameOf (filename : String) : String :=
  String.mk ((camelSplit (replaceSeps (stripVideoExt filename.data))).map
    Char.toLower)

/-- Split at every character satisfying `p` (empty pieces between adjacent
separators included).  The JS code splits on separator runs (`/\s+/`), which
differs only in the empty pieces; both are removed by the length filter of
`wordsOf`. -/
def splitChars (p : Char → Bool) : List Char → List (List Char)
  | [] => [[]]
  | c :: rest =>
    if p c then [] :: splitChars p rest
    else
      match splitChars p rest with
      | [] => [[c]]
      | piece :: pieces => (c :: piece) :: pieces

/-- Tokens of the cleaned name: split on whitespace, keep tokens of length
greater than 2 (`cleanName.split(/\s+/).filter(w => w.length > 2)`,
line 47). -/
def wordsOf (filename : String) : List String :=
  ((splitChars (fun c => c.isWhitespace) (cleanNameOf filename).data).map
    String.mk).filter fun w => decide (2 < w.length)

/-- `w.charAt(0).toUpperCase() + w.slice(1)` (line 89). -/
def capitalize (w : String) : String :=
  match w.data with
  | [] => ""
  | c :: rest => String.mk (c.toUpper :: rest)

/-- `Array.prototype.join(' ')` on a list of strings (line 90). -/
def joinSpace : List String → String
  | [] => ""
  | [w] => w
  | w :: rest => w ++ " " ++ joinSpace rest

/-- Category keyword → associated tags table (lines 50-74), in source
order. -/
def categoryMap : List (String × List String) :=
  [("nature", ["nature", "landscape", "outdoor", "scenery"]),
   ("city", ["urban", "cityscape", "architecture", "downtown"]),
   ("ocean", ["ocean", "sea", "water", "beach", "marine"]),
   ("mountain", ["mountain", "hiking", "nature", "landscape"]),
   ("sunset", ["sunset", "golden hour", "evening", "sky"]),
   ("sunrise", ["sunrise", "morning", "dawn", "sky"]),
   ("food", ["food", "culinary", "cooking", "restaurant"]),
   ("people", ["people", "lifestyle", "social", "human"]),
   ("business", ["business", "corporate", "professional", "office"]),
   ("technology", ["technology", "tech", "digital", "modern"]),
   ("travel", ["travel", "vacation", "tourism", "destination"]),
   ("fitness", ["fitness", "health", "exercise", "workout"]),
   ("abstract", ["abstract", "artistic", "creative", "design"]),
   ("aerial", ["aerial", "drone", "birds eye", "top view"]),
   ("slow motion", ["slow motion", "slo mo", "cinematic"]),
   ("time lapse", ["time lapse", "timelapse", "fast motion"]),
   ("night", ["night", "evening", "dark", "nighttime"]),
   ("day", ["day", "daytime", "bright", "sunny"]),
   ("rain", ["rain", "weather", "wet", "storm"]),
   ("snow", ["snow", "winter", "cold", "white"]),
   ("fire", ["fire", "flame", "heat", "burning"]),
   ("water", ["water", "liquid", "fluid", "aqua"]),
   ("sky", ["sky", "clouds", "atmosphere", "aerial"])]

/-- Category keyword → use-case labels table (lines 77-85), in source
order. -/
def useCaseMap : List (String × List String) :=
  [("nature", ["Content Creation", "Marketing", "Background", "Social Media"]),
   ("city", ["Marketing", "Real Estate", "Travel", "Background"]),
   ("business", ["Corporate Videos", "Marketing", "Presentations"]),
   ("food", ["Restaurant Marketing", "Content Creation", "Social Media"]),
   ("technology", ["Tech Reviews", "Marketing", "Presentations"]),
   ("abstract", ["Background", "Transitions", "Creative Projects"]),
   ("aerial", ["Real Estate", "Travel", "Marketing", "Documentaries"])]

/-- Whether `needle` occurs anywhere in `hay`. -/
def containsSub (needle : List Char) : List Char → Bool
  | [] => needle.isEmpty
  | d :: ds => matchesAt needle (d :: ds) || containsSub needle ds

/-- `s.includes(sub)`: substring containment. -/
def jsIncludes (s sub : String) : Bool :=
  containsSub sub.data s.data

/-- Key lookup in an association-list table (JS object property access). -/
def jsLookup (m : List (String × List String)) (k : String) :
    Option (List String) :=
  (m.find? fun e => e.1 == k).map Prod.snd

/-- Insertion-ordered set add, modelling `Set.prototype.add`. -/
def setAdd (l : List String) (x : String) : List String :=
  if x ∈ l then l else l ++ [x]

/-- The two baseline tags seeding the tag set (line 93). -/
def seedTags : List String := ["stock footage", "video clip"]

/-- Inner loop body (lines 98-105): if the word and the category key are
substrings of one another, union the category's tags (and use cases, when
the category has them) into the accumulated sets. -/
def applyCategory (word : String) (acc : List String × List String)
    (entry : String × List String) : List String × List String :=
  if jsIncludes word entry.1 || jsIncludes entry.1 word then
    (entry.2.foldl setAdd acc.1,
     match jsLookup useCaseMap entry.1 with
     | some ucs => ucs.foldl setAdd acc.2
     | none => acc.2)
  else acc

/-- Per-word pass over all category keys (lines 96-106). -/
def applyWord (acc : List String × List String) (word : String) :
    List String × List String :=
  categoryMap.foldl (applyCategory word) acc

/-- The tag and use-case sets accumulated over all words, tag set seeded
with the baseline tags (lines 93-106). -/
def tagsUseCases (words : List String) : List String × List String :=
  words.foldl applyWord (seedTags, [])

/-- The generic use cases used when none were discovered (line 110). -/
def genericUseCases : List String :=
  ["Content Creation", "Marketing", "Background", "Social Media"]

/-- The fixed description sentence template (line 114), interpolating the
lowercased raw title. -/
def descTemplate (t : String) : String :=
  "High-quality " ++ t ++
    " stock footage perfect for your creative projects. This video can be used for content creation, marketing campaigns, social media posts, and more."

/-- Result of the filename classifier. -/
structure ParsedDescriptor where
  title : String
  tags : List String
  useCases : List String
  description : String
deriving DecidableEq

/-- `parseFilename` (lines 36-122): title from capitalized surviving tokens
(falling back to a generic title when empty), tags and use cases from the
keyword tables (generic use cases when none found), truncated to 10 and 6,
and the templated description built from the raw (pre-fallback) title. -/
def parseFilename (filename : String) : ParsedDescriptor :=
  let words := wordsOf filename
  let title := joinSpace (words.map capitalize)
  let tu := tagsUseCases words
  let useCases := if tu.2 = [] then genericUseCases.foldl setAdd tu.2 else tu.2
  { title := if title = "" then "Stock Video Footage" else title
    tags := tu.1.take 10
    useCases := useCases.take 6
    description := descTemplate (strToLower title) }

/-! ## JS number values

`parseInt` produces an integer or `NaN`; `parseFloat` a decimal or `NaN`;
fields may also hold `null`.  `null`, `NaN` and `0` are all falsy. -/

/-- A JS variable holding `null`, `NaN`, or an integer. -/
inductive JsInt where
  | null
  | nan
  | int (n : ℤ)
deriving DecidableEq

/-- A JS variable holding `null`, `NaN`, or a (decimal) number, modelled as a
rational. -/
inductive JsFloat where
  | null
  | nan
  | num (q : ℚ)
deriving DecidableEq

/-! ## Metadata normalizer (`getAspectRatio` lines 130-142,
`formatDuration` lines 149-159) -/

/-- `getAspectRatio` (lines 130-142): "Unknown" on falsy dimensions,
otherwise the first of the five canonical ratios within absolute tolerance
0.1 of width/height, else the literal `widthxheight` string. -/
def getAspectRatio (width height : JsInt) : String :=
  match width, height with
  | .int w, .int h =>
    if w = 0 ∨ h = 0 then "Unknown"
    else
      let ratio : ℚ := (w : ℚ) / (h : ℚ)
      if |ratio - 16/9| < 1/10 then "16:9 (Landscape)"
      else if |ratio - 9/16| < 1/10 then "9:16 (Portrait)"
      else if |ratio - 1| < 1/10 then "1:1 (Square)"
      else if |ratio - 4/3| < 1/10 then "4:3 (Standard)"
      else if |ratio - 21/9| < 1/10 then "21:9 (Ultrawide)"
      else s!"{w}x{h}"
  | _, _ => "Unknown"

/-- Truncation toward zero on rationals (the JS `%` operator truncates). -/
def ratTrunc (q : ℚ) : ℤ :=
  if 0 ≤ q then ⌊q⌋ else ⌈q⌉

/-- The JS remainder `a % b`: `a - b * trunc(a / b)`. -/
def jsFmod (a b : ℚ) : ℚ :=
  a - b * (ratTrunc (a / b) : ℚ)

/-- `formatDuration` (lines 149-159): "Unknown" on falsy input, otherwise
`Math.floor` minutes and remainder seconds. -/
def formatDuration (seconds : JsFloat) : String :=
  match seconds with
  | .num q =>
    if q = 0 then "Unknown"
    else
      let mins : ℤ := ⌊q / 60⌋
      let secs : ℤ := ⌊jsFmod q 60⌋
      if 0 < mins then s!"{mins}m {secs}s" else s!"{secs}s"
  | _ => "Unknown"

/-- Decimal model of `Number.prototype.toFixed(2)` for nonnegative values
(used for the file-size label, line 304): round half up to two decimal
places. -/
def toFixed2 (q : ℚ) : String :=
  let n : ℤ := ⌊q * 100 + 1/2⌋
  let ip := n / 100
  let fp := (n % 100).toNat
  s!"{ip}." ++ (if fp < 10 then "0" else "") ++ s!"{fp}"

/-! ## Pricing (lines 287-289) -/

/-- The pricing step (lines 287-289): default 4.99; 7.99 when the duration
is truthy and exceeds 30; 9.99 when the width is truthy and at least 3840
(applied last, so it wins). -/
def price (duration : JsFloat) (width : JsInt) : ℚ :=
  let p : ℚ := 499/100
  let p :=
    match duration with
    | .num d => if d ≠ 0 ∧ 30 < d then 799/100 else p
    | _ => p
  match width with
  | .int w => if w ≠ 0 ∧ 3840 ≤ w then 999/100 else p
  | _ => p

/-! ## Storage metadata fetcher (`getVideoMetadata`, lines 166-194)

The storage calls and the surrounding try/catch are network effects; they
appear below as the orchestrator's abstract `fetch` oracle (whose `none`
result is the caught-error path returning `null`).  The pure part — parsing
the custom attribute bag — is embedded here. -/

/-- A value found in the custom attribute bag: a string or (for `hasAudio`)
a native boolean. -/
inductive JsAttr where
  | str (s : String)
  | bool (b : Bool)
deriving DecidableEq

/-- The custom attribute bag of a stored file (`metadata.metadata`),
restricted to the four attributes the code reads. -/
structure CustomMetadata where
  width : Option JsAttr
  height : Option JsAttr
  duration : Option JsAttr
  hasAudio : Option JsAttr
deriving DecidableEq

/-- JS truthiness of an attribute value (`""` and `false` are falsy). -/
def jsAttrTruthy : JsAttr → Bool
  | .str s => !(s == "")
  | .bool b => b

/-- JS string coercion of an attribute value. -/
def jsAttrToString : JsAttr → String
  | .str s => s
  | .bool b => if b then "true" else "false"

/-- Value of a nonempty run of decimal digits. -/
def digitsToNat (ds : List Char) : ℕ :=
  ds.foldl (fun acc c => 10 * acc + (c.toNat - 48)) 0

/-- The leading run of decimal digits, `none` when there is none. -/
def digitsPrefixVal (cs : List Char) : Option ℕ :=
  let ds := cs.takeWhile Char.isDigit
  if ds = [] then none else some (digitsToNat ds)

/-- Model of JS `parseInt` for decimal notation (no `0x` radix prefix):
skip leading whitespace, optional sign, then the leading digit run; `none`
models `NaN`.  Trailing garbage is ignored, as in JS. -/
def jsParseInt (s : String) : Option ℤ :=
  match s.data.dropWhile Char.isWhitespace with
  | '-' :: rest => (digitsPrefixVal rest).map fun n => -(n : ℤ)
  | '+' :: rest => (digitsPrefixVal rest).map fun n => (n : ℤ)
  | cs => (digitsPrefixVal cs).map fun n => (n : ℤ)

/-- Magnitude part of `parseFloat`: digits with an optional fraction part;
`none` when no digit is present. -/
def jsParseFloatMag (cs : List Char) : Option ℚ :=
  let ipart := cs.takeWhile Char.isDigit
  let rest := cs.dropWhile Char.isDigit
  match rest with
  | '.' :: rest2 =>
    let fpart := rest2.takeWhile Char.isDigit
    if ipart = [] ∧ fpart = [] then none
    else some ((digitsToNat ipart : ℚ) +
      (digitsToNat fpart : ℚ) / ((10 : ℚ) ^ fpart.length))
  | _ => if ipart = [] then none else some (digitsToNat ipart : ℚ)

/-- Model of JS `parseFloat` for plain decimal notation (no exponent):
skip leading whitespace, optional sign, digits with optional fraction;
`none` models `NaN`. -/
def jsParseFloat (s : String) : Option ℚ :=
  match s.data.dropWhile Char.isWhitespace with
  | '-' :: rest => (jsParseFloatMag rest).map Neg.neg
  | '+' :: rest => jsParseFloatMag rest
  | cs => jsParseFloatMag cs

/-- `customMetadata.width ? parseInt(customMetadata.width) : null`
(lines 185-186): `null` when the attribute is absent or falsy, `NaN` when
present but unparsable, the integer otherwise. -/
def parseIntAttr (a : Option JsAttr) : JsInt :=
  match a with
  | none => .null
  | some v =>
    if jsAttrTruthy v then
      match jsParseInt (jsAttrToString v) with
      | some n => .int n
      | none => .nan
    else .null

/-- `customMetadata.duration ? parseFloat(customMetadata.duration) : null`
(line 187). -/
def parseFloatAttr (a : Option JsAttr) : JsFloat :=
  match a with
  | none => .null
  | some v =>
    if jsAttrTruthy v then
      match jsParseFloat (jsAttrToString v) with
      | some q => .num q
      | none => .nan
    else .null

/-- `customMetadata.hasAudio === 'true' || customMetadata.hasAudio === true`
(line 188). -/
def jsHasAudio (a : Option JsAttr) : Bool :=
  a == some (.str "true") || a == some (.bool true)

/-- The metadata record assembled by `getVideoMetadata` on its success path
(lines 180-189). -/
structure VideoMetadata where
  url : String
  size : ℕ
  contentType : String
  timeCreated : String
  width : JsInt
  height : JsInt
  duration : JsFloat
  hasAudio : Bool
deriving DecidableEq

/-- Pure core of `getVideoMetadata` (lines 180-189): parse the custom
attribute bag into the metadata fields. -/
def getVideoMetadataFields (url : String) (size : ℕ)
    (contentType timeCreated : String) (cm : CustomMetadata) : VideoMetadata :=
  { url := url
    size := size
    contentType := contentType
    timeCreated := timeCreated
    width := parseIntAttr cm.width
    height := parseIntAttr cm.height
    duration := parseFloatAttr cm.duration
    hasAudio := jsHasAudio cm.hasAudio }

/-! ## Batch orchestrator (`populateMarketplace`, lines 244-341) -/

/-- `path.basename`: the part after the last `/`. -/
def jsBasename (p : String) : String :=
  match ((splitChars (fun c => c = '/') p.data).map String.mk).getLast? with
  | some b => b
  | none => p

/-- `path.extname`: from the last `.` of the basename to its end; empty when
there is no dot or the only dot leads the basename. -/
def jsExtname (p : String) : String :=
  let b := (jsBasename p).data
  let revAfter := b.reverse.takeWhile fun c => !(c = '.')
  if revAfter.length = b.length then ""
  else if b.length = revAfter.length + 1 then ""
  else String.mk ('.' :: revAfter.reverse)

/-- The fixed video extension allow-list (line 254). -/
def videoExts : List String := [".mp4", ".mov", ".avi", ".webm"]

/-- The candidate filter (lines 252-255): extension, lowercased, in the
allow-list. -/
def isVideoFile (name : String) : Bool :=
  videoExts.contains (strToLower (jsExtname name))

/-- The draft listing assembled per file (`videoData`, lines 292-306). -/
structure ListingDraft where
  fileName : String
  url : String
  title : String
  description : String
  tags : List String
  useCases : List String
  hasAudio : Bool
  aspectRatio : String
  duration : String
  durationSeconds : JsFloat
  resolution : String
  fileSize : String
  price : ℚ
deriving DecidableEq

/-- `${metadata.width}x${metadata.height}` when both truthy, else "Unknown"
(line 303). -/
def resolutionLabel (w h : JsInt) : String :=
  match w, h with
  | .int a, .int b => if a ≠ 0 ∧ b ≠ 0 then s!"{a}x{b}" else "Unknown"
  | _, _ => "Unknown"

/-- Build the `videoData` draft (lines 284-306) from the fetched metadata:
classifier, pricing and normalizer composed. -/
def buildVideoData (fileName : String) (md : VideoMetadata) : ListingDraft :=
  let parsed := parseFilename fileName
  { fileName := fileName
    url := md.url
    title := parsed.title
    description := parsed.description
    tags := parsed.tags
    useCases := parsed.useCases
    hasAudio := md.hasAudio
    aspectRatio := getAspectRatio md.width md.height
    duration := formatDuration md.duration
    durationSeconds := md.duration
    resolution := resolutionLabel md.width md.height
    fileSize := toFixed2 ((md.size : ℚ) / (1024 * 1024)) ++ " MB"
    price := price md.duration md.width }

/-- Observable actions of one run: a metadata fetch, a classifier
invocation, a document-store write attempt, and the inter-file pause (ms). -/
inductive Event where
  | fetchCall (name : String)
  | classifyCall (name : String)
  | writeCall (name : String)
  | delay (ms : ℕ)
deriving DecidableEq

/-- One loop iteration (lines 268-328): fetch; on failure record the error
and `continue` (skipping the rest of the body, the delay included); on
success build the draft, attempt the write, count the outcome, then pause
500 ms.  Returns the iteration's events and its (success, error) counter
increments. -/
def processFile (fetch : String → Option VideoMetadata)
    (write : ListingDraft → Bool) (name : String) :
    List Event × Bool × Bool :=
  match fetch name with
  | none => ([Event.fetchCall name], false, true)
  | some md =>
    let draft := buildVideoData (jsBasename name) md
    if write draft then
      ([Event.fetchCall name, Event.classifyCall name, Event.writeCall name,
        Event.delay 500], true, false)
    else
      ([Event.fetchCall name, Event.classifyCall name, Event.writeCall name,
        Event.delay 500], false, true)

/-- The whole candidate loop: concatenated iteration events and summed
counters, in listing order. -/
def processLoop (fetch : String → Option VideoMetadata)
    (write : ListingDraft → Bool) : List String → List Event × ℕ × ℕ
  | [] => ([], 0, 0)
  | f :: rest =>
    let r := processFile fetch write f
    let rr := processLoop fetch write rest
    (r.1 ++ rr.1, (if r.2.1 then 1 else 0) + rr.2.1,
      (if r.2.2 then 1 else 0) + rr.2.2)

/-- The run's final report: either the early "no video files found" message
(lines 259-262) or the completion block with its counters (lines 330-335). -/
inductive Summary where
  | noFiles
  | completed (succeeded failed total : ℕ)
deriving DecidableEq

/-- `populateMarketplace` (lines 244-341): filter the listed names to video
files; with zero candidates return the "no files" report at once (no loop,
no writes); otherwise run the loop and report the counters and the
candidate total. -/
def populateMarketplace (fetch : String → Option VideoMetadata)
    (write : ListingDraft → Bool) (allNames : List String) :
    Summary × List Event :=
  let videoFiles := allNames.filter isVideoFile
  if videoFiles.length = 0 then (Summary.noFiles, [])
  else
    let r := processLoop fetch write videoFiles
    (Summary.completed r.2.1 r.2.2 videoFiles.length, r.1)

/-! ## Concrete oracles used by witnesses and counterexamples -/

/-- A fetch oracle that always fails (every metadata call errors). -/
def fetchNone : String → Option VideoMetadata := fun _ => none

/-- A write oracle that always succeeds. -/
def writeTrue : ListingDraft → Bool := fun _ => true

/-- A sample metadata record. -/
def mdSample : VideoMetadata :=
  { url := "https://example.com/v"
    size := 0
    contentType := "video/mp4"
    timeCreated := "2026-01-01"
    width := .int 1920
    height := .int 1080
    duration := .num 10
    hasAudio := false }

/-- A fetch oracle that always succeeds with `mdSample`. -/
def fetchSome : String → Option VideoMetadata := fun _ => some mdSample

/-- A fetch oracle that succeeds only on `a.mp4`. -/
def fetchOnlyA : String → Option VideoMetadata :=
  fun n => if n = "a.mp4" then some mdSample else none

/-- An attribute bag with unparsable numeric attributes and a string-"true"
audio flag. -/
def cmSample : CustomMetadata :=
  { width := some (.str "abc")
    height := none
    duration := some (.str "xyz")
    hasAudio := some (.str "true") }

/-! ## Helper lemmas -/

theorem strLengthAppend (a b : String) :
    (a ++ b).length = a.length + b.length := by
  show (a.data ++ b.data).length = a.data.length + b.data.length
  exact List.length_append a.data b.data

theorem capitalize_ne_empty (w : String) (h : w.data ≠ []) :
    capitalize w ≠ "" := by
  unfold capitalize
  rcases hd : w.data with _ | ⟨c, rest⟩
  · exact absurd hd h
  · simp only [hd]
    intro hcon
    have h2 : (String.mk (c.toUpper :: rest)).length = rest.length + 1 := rfl
    have h3 : ("" : String).length = 0 := rfl
    rw [hcon] at h2
    omega

theorem joinSpace_ne_empty (x : String) (xs : List String) (hx : x ≠ "") :
    joinSpace (x :: xs) ≠ "" := by
  cases xs with
  | nil => exact hx
  | cons y ys =>
    show x ++ " " ++ joinSpace (y :: ys) ≠ ""
    intro hcon
    have hlen := congrArg String.length hcon
    rw [strLengthAppend, strLengthAppend] at hlen
    have h1 : (" " : String).length = 1 := rfl
    have h0 : ("" : String).length = 0 := rfl
    omega

theorem mem_wordsOf_length (fn w : String) (h : w ∈ wordsOf fn) :
    2 < w.length :=
  of_decide_eq_true (List.mem_filter.mp h).2

theorem wordsOf_data_ne_nil (fn w : String) (h : w ∈ wordsOf fn) :
    w.data ≠ [] := by
  intro hd
  have h1 := mem_wordsOf_length fn w h
  have h2 : w.length = w.data.length := rfl
  rw [hd] at h2
  simp at h2
  omega

theorem titleRaw_ne_empty (fn : String) (h : wordsOf fn ≠ []) :
    joinSpace ((wordsOf fn).map capitalize) ≠ "" := by
  rcases hw : wordsOf fn with _ | ⟨w, rest⟩
  · exact absurd hw h
  · rw [List.map_cons]
    refine joinSpace_ne_empty _ _ (capitalize_ne_empty w ?_)
    exact wordsOf_data_ne_nil fn w (hw ▸ List.mem_cons_self w rest)

theorem parseFilename_title (fn : String) :
    (parseFilename fn).title =
      (if joinSpace ((wordsOf fn).map capitalize) = "" then "Stock Video Footage"
       else joinSpace ((wordsOf fn).map capitalize)) := rfl

theorem parseFilename_description (fn : String) :
    (parseFilename fn).description =
      descTemplate (strToLower (joinSpace ((wordsOf fn).map capitalize))) := rfl

theorem parseFilename_tags (fn : String) :
    (parseFilename fn).tags = (tagsUseCases (wordsOf fn)).1.take 10 := rfl

/-- Invariant kept by the tag accumulator: the two baseline tags head the
list. -/
def tagInv (l : List String) : Prop :=
  l.take 2 = seedTags ∧ 2 ≤ l.length

theorem tagInv_setAdd (l : List String) (x : String) (h : tagInv l) :
    tagInv (setAdd l x) := by
  obtain ⟨h1, h2⟩ := h
  unfold setAdd
  split
  · exact ⟨h1, h2⟩
  · refine ⟨?_, ?_⟩
    · rw [List.take_append_of_le_length h2]
      exact h1
    · rw [List.length_append]
      omega

theorem tagInv_foldl (ts l : List String) (h : tagInv l) :
    tagInv (ts.foldl setAdd l) := by
  induction ts generalizing l with
  | nil => exact h
  | cons t ts ih => exact ih _ (tagInv_setAdd _ _ h)

theorem tagInv_applyCategory (w : String) (acc : List String × List String)
    (e : String × List String) (h : tagInv acc.1) :
    tagInv (applyCategory w acc e).1 := by
  unfold applyCategory
  split
  · exact tagInv_foldl _ _ h
  · exact h

theorem tagInv_foldlCat (w : String) (es : List (String × List String))
    (acc : List String × List String) (h : tagInv acc.1) :
    tagInv (es.foldl (applyCategory w) acc).1 := by
  induction es generalizing acc with
  | nil => exact h
  | cons e es ih => exact ih _ (tagInv_applyCategory _ _ _ h)

theorem tagInv_foldlWord (ws : List String) (acc : List String × List String)
    (h : tagInv acc.1) : tagInv (ws.foldl applyWord acc).1 := by
  induction ws generalizing acc with
  | nil => exact h
  | cons w ws ih => exact ih _ (tagInv_foldlCat w categoryMap acc h)

theorem tagInv_tagsUseCases (ws : List String) : tagInv (tagsUseCases ws).1 :=
  tagInv_foldlWord ws (seedTags, []) ⟨rfl, by decide⟩

theorem seed_mem_take10 (l : List String) (h : tagInv l) :
    "stock footage" ∈ l.take 10 ∧ "video clip" ∈ l.take 10 := by
  have h2 : (l.take 10).take 2 = seedTags := by
    rw [List.take_take]
    exact h.1
  constructor <;> refine List.take_subset 2 (l.take 10) ?_ <;> rw [h2] <;> decide

/-- Each loop iteration increments exactly one of the two counters. -/
theorem processFile_one_counter (fetch : String → Option VideoMetadata)
    (write : ListingDraft → Bool) (f : String) :
    ((if (processFile fetch write f).2.1 then 1 else 0) : ℕ) +
      (if (processFile fetch write f).2.2 then 1 else 0) = 1 := by
  unfold processFile
  rcases fetch f with _ | md
  · rfl
  · simp only
    split <;> rfl

theorem processLoop_counts (fetch : String → Option VideoMetadata)
    (write : ListingDraft → Bool) (files : List String) :
    (processLoop fetch write files).2.1 + (processLoop fetch write files).2.2 =
      files.length := by
  induction files with
  | nil => rfl
  | cons f rest ih =>
    have h1 := processFile_one_counter fetch write f
    simp only [processLoop, List.length_cons]
    omega

/-! ## Claims -/

/-- C1 (counterexample): classifying "sunset-beach-walk.mp4" does NOT put
"ocean" or "sea" into the tag list — the substring match runs against
category keys only, and the token "beach" is a tag under the "ocean" key,
not a key, so it matches no category. -/
theorem claim_C1_counterexample :
    "ocean" ∉ (parseFilename "sunset-beach-walk.mp4").tags ∧
    "sea" ∉ (parseFilename "sunset-beach-walk.mp4").tags := by decide

/-- C1 (amended): classify("sunset-beach-walk.mp4") returns title
"Sunset Beach Walk"; its tag list includes "sunset", "golden hour",
"stock footage" and "video clip"; and its use-case list includes
"Content Creation" (via the generic fallback, since no matched category has
use cases). -/
theorem claim_C1 :
    (parseFilename "sunset-beach-walk.mp4").title = "Sunset Beach Walk" ∧
    "sunset" ∈ (parseFilename "sunset-beach-walk.mp4").tags ∧
    "golden hour" ∈ (parseFilename "sunset-beach-walk.mp4").tags ∧
    "stock footage" ∈ (parseFilename "sunset-beach-walk.mp4").tags ∧
    "video clip" ∈ (parseFilename "sunset-beach-walk.mp4").tags ∧
    "Content Creation" ∈ (parseFilename "sunset-beach-walk.mp4").useCases := by
  decide

/-- C2: the price is 4.99 when the duration is at most 30 s and the width is
below 3840; 7.99 when the duration exceeds 30 s and the width is below 3840;
and 9.99 whenever the width is at least 3840 — the 4K override, applied
last, wins over the duration override for every duration; a null duration
also prices at 4.99 below 4K width. -/
theorem claim_C2 (d : ℚ) (w : ℤ) :
    (d ≤ 30 → w < 3840 → price (JsFloat.num d) (JsInt.int w) = 499/100) ∧
    (30 < d → w < 3840 → price (JsFloat.num d) (JsInt.int w) = 799/100) ∧
    (3840 ≤ w → price (JsFloat.num d) (JsInt.int w) = 999/100) ∧
    (w < 3840 → price JsFloat.null (JsInt.int w) = 499/100) := by
  refine ⟨?_, ?_, ?_, ?_⟩
  · intro hd hw
    have h1 : ¬(w ≠ 0 ∧ 3840 ≤ w) := by rintro ⟨_, hc⟩; omega
    have h2 : ¬(d ≠ 0 ∧ 30 < d) := by rintro ⟨_, hc⟩; linarith
    simp only [price]
    rw [if_neg h2, if_neg h1]
  · intro hd hw
    have h1 : ¬(w ≠ 0 ∧ 3840 ≤ w) := by rintro ⟨_, hc⟩; omega
    simp only [price]
    rw [if_neg h1, if_pos ⟨(show (0:ℚ) < d by linarith).ne', hd⟩]
  · intro hw
    simp only [price]
    rw [if_pos ⟨by omega, hw⟩]
  · intro hw
    have h1 : ¬(w ≠ 0 ∧ 3840 ≤ w) := by rintro ⟨_, hc⟩; omega
    simp only [price]
    rw [if_neg h1]

/-- C2 (witness): the three example price computations of the spec. -/
theorem claim_C2_witness :
    price (JsFloat.num 40) (JsInt.int 1920) = 799/100 ∧
    price (JsFloat.num 40) (JsInt.int 3840) = 999/100 ∧
    price (JsFloat.num 10) (JsInt.int 1280) = 499/100 :=
  ⟨(claim_C2 40 1920).2.1 (by norm_num) (by norm_num),
   (claim_C2 40 3840).2.2.1 (by norm_num),
   (claim_C2 10 1280).1 (by norm_num) (by norm_num)⟩

/-- C3 (counterexample): when the metadata fetch fails, the loop `continue`
skips the delay as well — a two-file run whose fetches both fail produces a
trace with no 500 ms pause at all. -/
theorem claim_C3_counterexample :
    populateMarketplace fetchNone writeTrue ["x.mp4", "y.mp4"] =
      (Summary.completed 0 2 2,
       [Event.fetchCall "x.mp4", Event.fetchCall "y.mp4"]) ∧
    Event.delay 500 ∉ (populateMarketplace fetchNone writeTrue
      ["x.mp4", "y.mp4"]).2 := by decide

/-- C3 (amended): the fixed 500 ms pause ends every iteration whose
metadata fetch succeeded (whether or not its write succeeded); when the
fetch fails, the iteration `continue`s immediately and no pause occurs. -/
theorem claim_C3 (fetch : String → Option VideoMetadata)
    (write : ListingDraft → Bool) (f : String) :
    ((fetch f).isSome →
      (processFile fetch write f).1.getLast? = some (Event.delay 500)) ∧
    (fetch f = none → Event.delay 500 ∉ (processFile fetch write f).1) := by
  constructor
  · intro h
    rcases hf : fetch f with _ | md
    · rw [hf] at h
      simp at h
    · simp only [processFile, hf]
      split <;> rfl
  · intro hf
    simp only [processFile, hf]
    simp

/-- C3 (witness): a successful iteration ends in the pause; a failed-fetch
iteration has no pause. -/
theorem claim_C3_witness :
    (processFile fetchSome writeTrue "x.mp4").1.getLast? =
      some (Event.delay 500) ∧
    Event.delay 500 ∉ (processFile fetchNone writeTrue "x.mp4").1 :=
  ⟨(claim_C3 fetchSome writeTrue "x.mp4").1 rfl,
   (claim_C3 fetchNone writeTrue "x.mp4").2 rfl⟩

/-- C4 (counterexample): a width attribute that is present but unparsable
("abc") yields `NaN`, which is a value distinct from `null`/absent. -/
theorem claim_C4_counterexample :
    (getVideoMetadataFields "u" 0 "video/mp4" "t"
      { width := some (.str "abc"), height := none, duration := none,
        hasAudio := none }).width = JsInt.nan ∧
    JsInt.nan ≠ JsInt.null := by decide

/-- C4 (amended): in the storage metadata fetcher, an absent width, height
or duration attribute yields null; a present (nonempty) attribute that does
not parse as a number yields NaN rather than null — still no error; and
hasAudio is true exactly when the attribute is the native boolean true or
the literal string "true". -/
theorem claim_C4 (u : String) (sz : ℕ) (ct tc : String) (cm : CustomMetadata) :
    (cm.width = none → (getVideoMetadataFields u sz ct tc cm).width = JsInt.null) ∧
    (∀ s, cm.width = some (JsAttr.str s) → ¬s = "" → jsParseInt s = none →
      (getVideoMetadataFields u sz ct tc cm).width = JsInt.nan) ∧
    (cm.height = none → (getVideoMetadataFields u sz ct tc cm).height = JsInt.null) ∧
    (∀ s, cm.height = some (JsAttr.str s) → ¬s = "" → jsParseInt s = none →
      (getVideoMetadataFields u sz ct tc cm).height = JsInt.nan) ∧
    (cm.duration = none →
      (getVideoMetadataFields u sz ct tc cm).duration = JsFloat.null) ∧
    (∀ s, cm.duration = some (JsAttr.str s) → ¬s = "" → jsParseFloat s = none →
      (getVideoMetadataFields u sz ct tc cm).duration = JsFloat.nan) ∧
    ((getVideoMetadataFields u sz ct tc cm).hasAudio = true ↔
      cm.hasAudio = some (JsAttr.str "true") ∨
        cm.hasAudio = some (JsAttr.bool true)) := by
  refine ⟨?_, ?_, ?_, ?_, ?_, ?_, ?_⟩
  · intro hw
    simp only [getVideoMetadataFields, hw, parseIntAttr]
  · intro s hw hne hp
    have ht : jsAttrTruthy (JsAttr.str s) = true := by
      simp [jsAttrTruthy, hne]
    simp only [getVideoMetadataFields, hw, parseIntAttr, ht, if_true,
      jsAttrToString, hp]
  · intro hh
    simp only [getVideoMetadataFields, hh, parseIntAttr]
  · intro s hh hne hp
    have ht : jsAttrTruthy (JsAttr.str s) = true := by
      simp [jsAttrTruthy, hne]
    simp only [getVideoMetadataFields, hh, parseIntAttr, ht, if_true,
      jsAttrToString, hp]
  · intro hd
    simp only [getVideoMetadataFields, hd, parseFloatAttr]
  · intro s hd hne hp
    have ht : jsAttrTruthy (JsAttr.str s) = true := by
      simp [jsAttrTruthy, hne]
    simp only [getVideoMetadataFields, hd, parseFloatAttr, ht, if_true,
      jsAttrToString, hp]
  · simp only [getVideoMetadataFields, jsHasAudio, Bool.or_eq_true,
      beq_iff_eq]

/-- C4 (witness): on a bag with unparsable width and duration, an absent
height and a string "true" audio flag, the fields come out NaN, null, NaN
and true. -/
theorem claim_C4_witness :
    (getVideoMetadataFields "u" 7 "video/mp4" "t" cmSample).width =
      JsInt.nan ∧
    (getVideoMetadataFields "u" 7 "video/mp4" "t" cmSample).height =
      JsInt.null ∧
    (getVideoMetadataFields "u" 7 "video/mp4" "t" cmSample).duration =
      JsFloat.nan ∧
    (getVideoMetadataFields "u" 7 "video/mp4" "t" cmSample).hasAudio = true :=
  ⟨(claim_C4 "u" 7 "video/mp4" "t" cmSample).2.1 "abc" rfl (by decide)
      (by decide),
   (claim_C4 "u" 7 "video/mp4" "t" cmSample).2.2.1 rfl,
   (claim_C4 "u" 7 "video/mp4" "t" cmSample).2.2.2.2.2.1 "xyz" rfl (by decide)
      (by decide),
   (claim_C4 "u" 7 "video/mp4" "t" cmSample).2.2.2.2.2.2.mpr (Or.inl rfl)⟩

/-- C5 (counterexample): on "a.mp4" no token survives, the returned title is
the generic fallback, and the description does NOT interpolate the lowercase
of that returned title — it interpolates the empty pre-fallback title. -/
theorem claim_C5_counterexample :
    (parseFilename "a.mp4").title = "Stock Video Footage" ∧
    (parseFilename "a.mp4").description ≠
      descTemplate (strToLower (parseFilename "a.mp4").title) := by decide

/-- C5 (amended): the description equals the fixed template interpolating
the lowercase of the pre-fallback title; when at least one token survives
this coincides with the lowercase of the returned title, and when no token
survives the returned title is "Stock Video Footage" while the description
interpolates the empty string. -/
theorem claim_C5 (fn : String) :
    (wordsOf fn ≠ [] →
      (parseFilename fn).description =
        descTemplate (strToLower (parseFilename fn).title)) ∧
    (wordsOf fn = [] →
      (parseFilename fn).title = "Stock Video Footage" ∧
      (parseFilename fn).description = descTemplate "") := by
  constructor
  · intro h
    have hne := titleRaw_ne_empty fn h
    rw [parseFilename_description, parseFilename_title, if_neg hne]
  · intro h
    rw [parseFilename_description, parseFilename_title, h]
    exact ⟨rfl, rfl⟩

/-- C5 (witness): the surviving-token case on "sunset-beach-walk.mp4" and
the fallback case on "a.mp4". -/
theorem claim_C5_witness :
    (parseFilename "sunset-beach-walk.mp4").description =
      descTemplate (strToLower (parseFilename "sunset-beach-walk.mp4").title) ∧
    (parseFilename "a.mp4").title = "Stock Video Footage" ∧
    (parseFilename "a.mp4").description = descTemplate "" :=
  ⟨(claim_C5 "sunset-beach-walk.mp4").1 (by decide),
   (claim_C5 "a.mp4").2 (by decide)⟩

/-- C6: getAspectRatio returns "Unknown" when either dimension is missing
(null/NaN) or zero; otherwise it classifies width/height against the five
canonical ratios 16:9, 9:16, 1:1, 4:3, 21:9 with absolute tolerance 0.1 in
that fixed priority order (first match wins), falling back to the literal
`widthxheight` string when none match; in particular on (1920,1080),
(1080,1920), (0,1080) and (1280,960) it returns the four labels of the
spec. -/
theorem claim_C6 (w h : ℤ) (x : JsInt) :
    getAspectRatio JsInt.null x = "Unknown" ∧
    getAspectRatio JsInt.nan x = "Unknown" ∧
    getAspectRatio x JsInt.null = "Unknown" ∧
    getAspectRatio x JsInt.nan = "Unknown" ∧
    getAspectRatio (JsInt.int 0) x = "Unknown" ∧
    getAspectRatio x (JsInt.int 0) = "Unknown" ∧
    (w ≠ 0 → h ≠ 0 → |(w : ℚ) / (h : ℚ) - 16/9| < 1/10 →
      getAspectRatio (JsInt.int w) (JsInt.int h) = "16:9 (Landscape)") ∧
    (w ≠ 0 → h ≠ 0 → ¬(|(w : ℚ) / (h : ℚ) - 16/9| < 1/10) →
      |(w : ℚ) / (h : ℚ) - 9/16| < 1/10 →
      getAspectRatio (JsInt.int w) (JsInt.int h) = "9:16 (Portrait)") ∧
    (w ≠ 0 → h ≠ 0 → ¬(|(w : ℚ) / (h : ℚ) - 16/9| < 1/10) →
      ¬(|(w : ℚ) / (h : ℚ) - 9/16| < 1/10) →
      |(w : ℚ) / (h : ℚ) - 1| < 1/10 →
      getAspectRatio (JsInt.int w) (JsInt.int h) = "1:1 (Square)") ∧
    (w ≠ 0 → h ≠ 0 → ¬(|(w : ℚ) / (h : ℚ) - 16/9| < 1/10) →
      ¬(|(w : ℚ) / (h : ℚ) - 9/16| < 1/10) →
      ¬(|(w : ℚ) / (h : ℚ) - 1| < 1/10) →
      |(w : ℚ) / (h : ℚ) - 4/3| < 1/10 →
      getAspectRatio (JsInt.int w) (JsInt.int h) = "4:3 (Standard)") ∧
    (w ≠ 0 → h ≠ 0 → ¬(|(w : ℚ) / (h : ℚ) - 16/9| < 1/10) →
      ¬(|(w : ℚ) / (h : ℚ) - 9/16| < 1/10) →
      ¬(|(w : ℚ) / (h : ℚ) - 1| < 1/10) →
      ¬(|(w : ℚ) / (h : ℚ) - 4/3| < 1/10) →
      |(w : ℚ) / (h : ℚ) - 21/9| < 1/10 →
      getAspectRatio (JsInt.int w) (JsInt.int h) = "21:9 (Ultrawide)") ∧
    (w ≠ 0 → h ≠ 0 → ¬(|(w : ℚ) / (h : ℚ) - 16/9| < 1/10) →
      ¬(|(w : ℚ) / (h : ℚ) - 9/16| < 1/10) →
      ¬(|(w : ℚ) / (h : ℚ) - 1| < 1/10) →
      ¬(|(w : ℚ) / (h : ℚ) - 4/3| < 1/10) →
      ¬(|(w : ℚ) / (h : ℚ) - 21/9| < 1/10) →
      getAspectRatio (JsInt.int w) (JsInt.int h) = s!"{w}x{h}") ∧
    getAspectRatio (JsInt.int 1920) (JsInt.int 1080) = "16:9 (Landscape)" ∧
    getAspectRatio (JsInt.int 1080) (JsInt.int 1920) = "9:16 (Portrait)" ∧
    getAspectRatio (JsInt.int 0) (JsInt.int 1080) = "Unknown" ∧
    getAspectRatio (JsInt.int 1280) (JsInt.int 960) = "4:3 (Standard)" := by
  refine ⟨?_, ?_, ?_, ?_, ?_, ?_, ?_, ?_, ?_, ?_, ?_, ?_, ?_, ?_, ?_, ?_⟩
  · rfl
  · rfl
  · cases x <;> rfl
  · cases x <;> rfl
  · cases x with
    | int b => simp [getAspectRatio]
    | null => rfl
    | nan => rfl
  · cases x with
    | int a => simp [getAspectRatio]
    | null => rfl
    | nan => rfl
  · intro hw hh h16
    simp only [getAspectRatio]
    rw [if_neg (not_or.mpr ⟨hw, hh⟩), if_pos h16]
  · intro hw hh h16 h916
    simp only [getAspectRatio]
    rw [if_neg (not_or.mpr ⟨hw, hh⟩), if_neg h16, if_pos h916]
  · intro hw hh h16 h916 h11
    simp only [getAspectRatio]
    rw [if_neg (not_or.mpr ⟨hw, hh⟩), if_neg h16, if_neg h916, if_pos h11]
  · intro hw hh h16 h916 h11 h43
    simp only [getAspectRatio]
    rw [if_neg (not_or.mpr ⟨hw, hh⟩), if_neg h16, if_neg h916, if_neg h11,
      if_pos h43]
  · intro hw hh h16 h916 h11 h43 h219
    simp only [getAspectRatio]
    rw [if_neg (not_or.mpr ⟨hw, hh⟩), if_neg h16, if_neg h916, if_neg h11,
      if_neg h43, if_pos h219]
  · intro hw hh h16 h916 h11 h43 h219
    simp only [getAspectRatio]
    rw [if_neg (not_or.mpr ⟨hw, hh⟩), if_neg h16, if_neg h916, if_neg h11,
      if_neg h43, if_neg h219]
  · norm_num [getAspectRatio, abs_lt]
  · norm_num [getAspectRatio, abs_lt]
  · simp [getAspectRatio]
  · norm_num [getAspectRatio, abs_lt]

/-- C6 (witness): the conditional classification branches exercised at
concrete dimensions — 16:9, 9:16, 1:1, 4:3, 21:9 and the fallback. -/
theorem claim_C6_witness :
    getAspectRatio (JsInt.int 1920) (JsInt.int 1080) = "16:9 (Landscape)" ∧
    getAspectRatio (JsInt.int 1080) (JsInt.int 1920) = "9:16 (Portrait)" ∧
    getAspectRatio (JsInt.int 1000) (JsInt.int 1000) = "1:1 (Square)" ∧
    getAspectRatio (JsInt.int 1280) (JsInt.int 960) = "4:3 (Standard)" ∧
    getAspectRatio (JsInt.int 2560) (JsInt.int 1080) = "21:9 (Ultrawide)" ∧
    getAspectRatio (JsInt.int 5) (JsInt.int 1) = "5x1" :=
  ⟨(claim_C6 1920 1080 JsInt.null).2.2.2.2.2.2.1 (by decide) (by decide)
      (by norm_num [abs_lt]),
   (claim_C6 1080 1920 JsInt.null).2.2.2.2.2.2.2.1 (by decide) (by decide)
      (by norm_num [abs_lt]) (by norm_num [abs_lt]),
   (claim_C6 1000 1000 JsInt.null).2.2.2.2.2.2.2.2.1 (by decide) (by decide)
      (by norm_num [abs_lt]) (by norm_num [abs_lt]) (by norm_num [abs_lt]),
   (claim_C6 1280 960 JsInt.null).2.2.2.2.2.2.2.2.2.1 (by decide) (by decide)
      (by norm_num [abs_lt]) (by norm_num [abs_lt]) (by norm_num [abs_lt])
      (by norm_num [abs_lt]),
   (claim_C6 2560 1080 JsInt.null).2.2.2.2.2.2.2.2.2.2.1 (by decide)
      (by decide) (by norm_num [abs_lt]) (by norm_num [abs_lt])
      (by norm_num [abs_lt]) (by norm_num [abs_lt]) (by norm_num [abs_lt]),
   (claim_C6 5 1 JsInt.null).2.2.2.2.2.2.2.2.2.2.2.1 (by decide) (by decide)
      (by norm_num [abs_lt]) (by norm_num [abs_lt]) (by norm_num [abs_lt])
      (by norm_num [abs_lt]) (by norm_num [abs_lt])⟩

/-- C7: when a candidate's metadata fetch fails, that iteration records only
the fetch (no classifier, no write attempt), increments the error counter
and not the success counter, and the loop goes on to process all remaining
candidates. -/
theorem claim_C7 (fetch : String → Option VideoMetadata)
    (write : ListingDraft → Bool) (f : String) (rest : List String)
    (hf : fetch f = none) :
    (processFile fetch write f).1 = [Event.fetchCall f] ∧
    Event.classifyCall f ∉ (processFile fetch write f).1 ∧
    Event.writeCall f ∉ (processFile fetch write f).1 ∧
    (processFile fetch write f).2 = (false, true) ∧
    (processLoop fetch write (f :: rest)).1 =
      Event.fetchCall f :: (processLoop fetch write rest).1 ∧
    (processLoop fetch write (f :: rest)).2.1 =
      (processLoop fetch write rest).2.1 ∧
    (processLoop fetch write (f :: rest)).2.2 =
      (processLoop fetch write rest).2.2 + 1 := by
  have hp : processFile fetch write f = ([Event.fetchCall f], false, true) := by
    simp only [processFile, hf]
  refine ⟨by rw [hp], by rw [hp]; simp, by rw [hp]; simp, by rw [hp], ?_, ?_, ?_⟩
  · simp only [processLoop, hp, List.singleton_append]
  · simp [processLoop, hp]
  · simp [processLoop, hp]
    omega

/-- C7 (witness): with an always-failing fetch, the first of two candidates
contributes one fetch event and one error, and the second is still
processed. -/
theorem claim_C7_witness :
    (processFile fetchNone writeTrue "x.mp4").1 = [Event.fetchCall "x.mp4"] ∧
    Event.classifyCall "x.mp4" ∉ (processFile fetchNone writeTrue "x.mp4").1 ∧
    Event.writeCall "x.mp4" ∉ (processFile fetchNone writeTrue "x.mp4").1 ∧
    (processFile fetchNone writeTrue "x.mp4").2 = (false, true) ∧
    (processLoop fetchNone writeTrue ["x.mp4", "y.mp4"]).1 =
      Event.fetchCall "x.mp4" ::
        (processLoop fetchNone writeTrue ["y.mp4"]).1 ∧
    (processLoop fetchNone writeTrue ["x.mp4", "y.mp4"]).2.1 =
      (processLoop fetchNone writeTrue ["y.mp4"]).2.1 ∧
    (processLoop fetchNone writeTrue ["x.mp4", "y.mp4"]).2.2 =
      (processLoop fetchNone writeTrue ["y.mp4"]).2.2 + 1 :=
  claim_C7 fetchNone writeTrue "x.mp4" ["y.mp4"] rfl

/-- C8 (counterexample): on a listing with no video files the run returns
the distinct "no files" report, which is not the counters summary
(succeeded=0, failed=0, total=0) the claim describes — though indeed no
write occurs. -/
theorem claim_C8_counterexample :
    populateMarketplace fetchNone writeTrue ["readme.txt"] =
      (Summary.noFiles, []) ∧
    Summary.noFiles ≠ Summary.completed 0 0 0 := by decide

/-- C8 (amended): when the filtered candidate list is empty, the run
terminates immediately with the distinct "no files" report (the counters
summary is not produced) and an empty event trace — in particular no
document-store write is performed. -/
theorem claim_C8 (fetch : String → Option VideoMetadata)
    (write : ListingDraft → Bool) (names : List String)
    (h : names.filter isVideoFile = []) :
    populateMarketplace fetch write names = (Summary.noFiles, []) := by
  simp only [populateMarketplace, h]
  simp

/-- C8 (witness): a run over a single non-video name terminates with the
"no files" report and no events. -/
theorem claim_C8_witness :
    populateMarketplace fetchNone writeTrue ["readme.md"] =
      (Summary.noFiles, []) :=
  claim_C8 fetchNone writeTrue ["readme.md"] (by decide)

/-- C9: for every filename with at least one surviving token, classify
yields a non-empty title, and the truncated-to-10 tag list still contains
both baseline tags "stock footage" and "video clip" (they are seeded first
into the set). -/
theorem claim_C9 (fn : String) (h : wordsOf fn ≠ []) :
    (parseFilename fn).title ≠ "" ∧
    "stock footage" ∈ (parseFilename fn).tags ∧
    "video clip" ∈ (parseFilename fn).tags := by
  refine ⟨?_, ?_, ?_⟩
  · rw [parseFilename_title]
    split
    · decide
    · assumption
  · rw [parseFilename_tags]
    exact (seed_mem_take10 _ (tagInv_tagsUseCases _)).1
  · rw [parseFilename_tags]
    exact (seed_mem_take10 _ (tagInv_tagsUseCases _)).2

/-- C9 (witness): "sunset-beach-walk.mp4" has surviving tokens, a non-empty
title, and both baseline tags. -/
theorem claim_C9_witness :
    wordsOf "sunset-beach-walk.mp4" ≠ [] ∧
    ((parseFilename "sunset-beach-walk.mp4").title ≠ "" ∧
     "stock footage" ∈ (parseFilename "sunset-beach-walk.mp4").tags ∧
     "video clip" ∈ (parseFilename "sunset-beach-walk.mp4").tags) :=
  ⟨by decide, claim_C9 "sunset-beach-walk.mp4" (by decide)⟩

/-- C10: on a run that reaches the completion summary, each candidate
iteration incremented exactly one of the two counters, so
succeeded + failed equals the reported total, which is the number of
candidate files. -/
theorem claim_C10 (fetch : String → Option VideoMetadata)
    (write : ListingDraft → Bool) (names : List String) (s e t : ℕ)
    (evs : List Event)
    (h : populateMarketplace fetch write names = (Summary.completed s e t, evs)) :
    s + e = t ∧ t = (names.filter isVideoFile).length := by
  simp only [populateMarketplace] at h
  by_cases h0 : (names.filter isVideoFile).length = 0
  · rw [if_pos h0] at h
    simp only [Prod.mk.injEq] at h
    exact absurd h.1 (by simp)
  · rw [if_neg h0] at h
    simp only [Prod.mk.injEq, Summary.completed.injEq] at h
    obtain ⟨⟨hs, he, ht⟩, _⟩ := h
    refine ⟨?_, ht.symm⟩
    rw [← hs, ← he, ← ht]
    exact processLoop_counts fetch write _

/-- C10 (witness): a run with one successful and one failed candidate (and
one non-candidate) reports succeeded=1, failed=1, total=2 = candidates. -/
theorem claim_C10_witness :
    1 + 1 = 2 ∧
    2 = ((["a.mp4", "b.mov", "c.txt"].filter isVideoFile)).length :=
  claim_C10 fetchOnlyA writeTrue ["a.mp4", "b.mov", "c.txt"] 1 1 2
    [Event.fetchCall "a.mp4", Event.classifyCall "a.mp4",
     Event.writeCall "a.mp4", Event.delay 500, Event.fetchCall "b.mov"]
    (by decide)

end Marketplace
